import Mathlib

/-!
Shallow embedding of the status-parsing and service-control logic of the
tailslint repository (src/tailscale.rs, src/docker.rs), together with a
spec-modelled event bridge, and theorems settling the frozen claims.

External process execution is modelled by its observable result: a spawn
attempt either fails with an OS error message (`Except.error`) or yields a
captured `CmdOutput` (exit-success flag, stdout, stderr), mirroring
`std::process::Command::output()`.

String operations are modelled character-structurally (on `String.data`)
so that every definition is executable and kernel-reducible:
`splitWhitespace` models Rust `str::split_whitespace`, `rustLines` models
`str::lines`, `trimStr` models `str::trim`, `containsSubstr` models
`str::contains(&str)`, and `parseU32` models `str::parse::<u32>()`.
-/

/-- Splits a character list at every character satisfying `p`; the separators
are dropped and empty runs are kept (the caller filters them as needed). -/
def splitP (p : Char → Bool) : List Char → List (List Char)
  | [] => [[]]
  | a :: as =>
    if p a then
      [] :: splitP p as
    else
      match splitP p as with
      | [] => [[a]]
      | l :: ls => (a :: l) :: ls

/-- Models Rust `str::split_whitespace`: split on runs of whitespace,
yielding only the nonempty fields. -/
def splitWhitespace (s : String) : List String :=
  ((splitP (fun c => c.isWhitespace) s.data).filter (fun l => !l.isEmpty)).map
    (fun l => String.mk l)

/-- Models Rust `str::lines`: split on `'\n'`, drop a final empty segment
produced by a trailing newline, and strip one trailing `'\r'` per line. -/
def rustLines (s : String) : List String :=
  let raw := splitP (fun c => c == '\n') s.data
  let raw := if raw.getLast? = some [] then raw.dropLast else raw
  raw.map (fun l => String.mk (if l.getLast? = some '\r' then l.dropLast else l))

/-- Models Rust `str::trim`: remove leading and trailing whitespace. -/
def trimStr (s : String) : String :=
  String.mk (((s.data.dropWhile (fun c => c.isWhitespace)).reverse.dropWhile
    (fun c => c.isWhitespace)).reverse)

/-- True iff the pattern `pat` occurs as a contiguous subsequence of the
second list. -/
def containsSeq (pat : List Char) : List Char → Bool
  | [] => pat.isEmpty
  | c :: t => pat.isPrefixOf (c :: t) || containsSeq pat t

/-- Models Rust `str::contains(&str)`: substring containment. -/
def containsSubstr (s pat : String) : Bool :=
  containsSeq pat.data s.data

/-- Numeric value of a list of decimal digit characters. -/
def digitsToNat (l : List Char) : Nat :=
  l.foldl (fun n c => n * 10 + (c.toNat - 48)) 0

/-- Models Rust `str::parse::<u32>().ok()`: an optional leading `'+'`,
then one or more decimal digits whose value fits in 32 bits; anything
else is `none`. -/
def parseU32 (s : String) : Option Nat :=
  let l := match s.data with
    | '+' :: rest => rest
    | l => l
  if l.isEmpty then none
  else if l.all (fun c => c.isDigit) then
    let n := digitsToNat l
    if n < 2 ^ 32 then some n else none
  else none

/-- The captured result of a spawned command that ran to completion,
mirroring `std::process::Output`: `success` is `output.status.success()`. -/
structure CmdOutput where
  success : Bool
  stdout : String
  stderr : String
deriving Repr, DecidableEq

/-- Embeds `MachineData` from src/tailscale.rs. -/
structure MachineData where
  ip : String
  hostname : String
  user : String
  os : String
  online : Bool
  details : String
deriving Repr, DecidableEq

/-- Embeds `TailscaleError` from src/tailscale.rs; `CommandError` carries
the OS error message of the failed spawn. -/
inductive TailscaleError where
  | CommandError (msg : String)
  | CommandFailed (stderr : String)
  | ParseError (msg : String)
  | DaemonStopped
deriving Repr, DecidableEq

/-- Embeds `DockerStatus` from src/docker.rs. -/
structure DockerStatus where
  raw_output : String
  active_state : String
  is_active : Bool
  loaded_state : String
  main_pid : Option Nat
  memory_peak : Option String
  cpu_time : Option String
deriving Repr, DecidableEq

/-- Embeds `DockerError` from src/docker.rs. -/
inductive DockerError where
  | CommandError (msg : String)
  | CommandFailed (stderr : String)
  | ParseError (msg : String)
deriving Repr, DecidableEq

/-- Embeds `Docker::parse_line_value` from src/docker.rs:
`line.strip_prefix(key).map(|v| v.trim())`. -/
def parse_line_value (line key : String) : Option String :=
  if key.data.isPrefixOf line.data then
    some (trimStr (String.mk (line.data.drop key.data.length)))
  else
    none

/-- The `Default::default()` record of `DockerStatus` with `raw_output`
overridden, as built at src/docker.rs lines 94-97. -/
def DockerStatus.initial (stdout : String) : DockerStatus :=
  { raw_output := stdout
    active_state := ""
    is_active := false
    loaded_state := ""
    main_pid := none
    memory_peak := none
    cpu_time := none }

/-- The body of the `for line in stdout.lines()` loop of `Docker::status`
(src/docker.rs lines 99-113): an if-let chain over the recognized key
prefixes, applied to the trimmed line. -/
def dockerStep (status : DockerStatus) (line : String) : DockerStatus :=
  match parse_line_value (trimStr line) "Active:" with
  | some value =>
    { status with active_state := value,
                  is_active := containsSubstr value "(running)" }
  | none =>
  match parse_line_value (trimStr line) "Loaded:" with
  | some value => { status with loaded_state := value }
  | none =>
  match parse_line_value (trimStr line) "Main PID:" with
  | some value =>
    { status with main_pid := ((splitWhitespace value).head?).bind parseU32 }
  | none =>
  match parse_line_value (trimStr line) "Mem peak:" with
  | some value => { status with memory_peak := some value }
  | none =>
  match parse_line_value (trimStr line) "CPU:" with
  | some value => { status with cpu_time := some value }
  | none => status

/-- The pure part of `Docker::status` (src/docker.rs lines 93-115): fold
the line loop over the captured stdout. -/
def Docker.statusFromOutput (out : CmdOutput) : DockerStatus :=
  (rustLines out.stdout).foldl dockerStep (DockerStatus.initial out.stdout)

/-- Embeds `Docker::status` (src/docker.rs lines 86-116): a spawn failure
becomes `CommandError` via the `?` operator; any captured output — exit
code regardless — is parsed into a `DockerStatus`. -/
def Docker.status (spawn : Except String CmdOutput) :
    Except DockerError DockerStatus :=
  match spawn with
  | .error e => .error (.CommandError e)
  | .ok out => .ok (Docker.statusFromOutput out)

/-- Embeds `Docker::is_active` (src/docker.rs lines 119-122). -/
def Docker.is_active (spawn : Except String CmdOutput) :
    Except DockerError Bool :=
  match Docker.status spawn with
  | .error e => .error e
  | .ok st => .ok st.is_active

/-- Which mutating operation a `toggle` invocation selects:
`start` is `Tailscale::up` / `Docker::start`, `stop` is
`Tailscale::down` / `Docker::stop`. -/
inductive ServiceAction where
  | start
  | stop
deriving Repr, DecidableEq

/-- Embeds `Docker::toggle` (src/docker.rs lines 76-82): `is_active()?`
propagates a query error; otherwise stop when active, start when not. -/
def Docker.toggle (spawn : Except String CmdOutput) :
    Except DockerError ServiceAction :=
  match Docker.is_active spawn with
  | .error e => .error e
  | .ok true => .ok .stop
  | .ok false => .ok .start

/-- The per-line machine builder inside the loop of `Tailscale::status`
(src/tailscale.rs lines 83-98): split on whitespace, skip lines with
fewer than 4 parts, otherwise build the `MachineData`. -/
def parseLine (line : String) : Option MachineData :=
  match splitWhitespace line with
  | ip :: hostname :: user :: os :: rest =>
    let details := String.intercalate " " rest
    some { ip := ip, hostname := hostname, user := user, os := os,
           online := !(containsSubstr details "offline"),
           details := details }
  | _ => none

/-- The body of the `for line in stdout.lines()` loop of `Tailscale::status`
(src/tailscale.rs lines 82-105): online machines are inserted at index 0,
offline machines are pushed at the end. -/
def statusStep (machines : List MachineData) (line : String) :
    List MachineData :=
  match parseLine line with
  | none => machines
  | some machine =>
    if machine.online then machine :: machines else machines ++ [machine]

/-- The machine-list accumulation of `Tailscale::status` over the whole
stdout text. -/
def parseMachines (stdout : String) : List MachineData :=
  (rustLines stdout).foldl statusStep []

/-- The pure part of `Tailscale::status` after the spawn (src/tailscale.rs
lines 70-107): non-zero exit is `CommandFailed(stderr)`, the literal
trimmed stopped text is `DaemonStopped`, anything else parses. -/
def Tailscale.statusFromOutput (out : CmdOutput) :
    Except TailscaleError (List MachineData) :=
  if out.success = false then
    .error (.CommandFailed out.stderr)
  else if trimStr out.stdout = "Tailscale is stopped." then
    .error .DaemonStopped
  else
    .ok (parseMachines out.stdout)

/-- Embeds `Tailscale::status` (src/tailscale.rs lines 67-108). -/
def Tailscale.status (spawn : Except String CmdOutput) :
    Except TailscaleError (List MachineData) :=
  match spawn with
  | .error e => .error (.CommandError e)
  | .ok out => Tailscale.statusFromOutput out

/-- Embeds `Tailscale::is_enabled` (src/tailscale.rs lines 120-138). -/
def Tailscale.is_enabled (spawn : Except String CmdOutput) :
    Except TailscaleError Bool :=
  match spawn with
  | .error e => .error (.CommandError e)
  | .ok out =>
    if out.success = false then
      if containsSubstr out.stderr "Tailscale is not running"
          || containsSubstr out.stderr "Cannot connect to the Tailscale daemon" then
        .ok false
      else
        .error (.CommandFailed out.stderr)
    else
      .ok (decide (trimStr out.stdout ≠ "Tailscale is stopped."))

/-- Models Rust `Result::unwrap_or` on the query result. -/
def unwrapOr (r : Except TailscaleError Bool) (d : Bool) : Bool :=
  match r with
  | .ok b => b
  | .error _ => d

/-- Embeds `Tailscale::toggle` (src/tailscale.rs lines 58-64):
`is_enabled().unwrap_or(false)` selects `down` (stop) when true and
`up` (start) when false. -/
def Tailscale.toggle (spawn : Except String CmdOutput) : ServiceAction :=
  if unwrapOr (Tailscale.is_enabled spawn) false then .stop else .start

/-- The last value extracted by `parse_line_value` for `key` over the
given lines (after trimming each line), mirroring that each matching
line overwrites the field so the final record holds the last one. -/
def lastFieldValue (key : String) (lines : List String) : Option String :=
  (lines.filterMap (fun l => parse_line_value (trimStr l) key)).getLast?

/-- Modelled from the spec: the `AppMessage` payload of the Event Bridge
(spec §3). The bridge itself is absent from src/ (it belongs to a variant
of the app not included there); the closed tagged variant is taken from
the spec's words. -/
inductive AppMessage where
  | Toggle
  | Refresh
  | Quit
  | SelectItem (id : String)
deriving Repr, DecidableEq

/-- Modelled from the spec: the consumer loop of the Event Bridge
(spec §4.4). The channel is unbounded and FIFO, so the messages reach the
single consumer in the order sent; the consumer processes each message in
turn and `Quit` is terminal: upon consuming it the loop stops scheduling
further iterations, so no later message is ever processed. The function
returns the sequence of messages the consumer processes, in order. -/
def processedMessages : List AppMessage → List AppMessage
  | [] => []
  | .Quit :: _ => [.Quit]
  | m :: ms => m :: processedMessages ms

/-! ## Helper lemmas -/

theorem getLast?_cons_eq (a : α) (l : List α) :
    (a :: l).getLast? = some (l.getLast?.getD a) := by
  induction l generalizing a with
  | nil => rfl
  | cons b l ih =>
    rw [List.getLast?_cons_cons, ih b]
    rcases h : l.getLast? with _ | x <;> simp [ih, h]

/-- Two character-list keys whose first characters differ cannot both be
prefixes of the same line. -/
theorem isPrefixOf_first_char {p q t : List Char} {a b : Char} {as bs : List Char}
    (hp : p.isPrefixOf t = true) (hq : q.isPrefixOf t = true)
    (hpe : p = a :: as) (hqe : q = b :: bs) : a = b := by
  subst hpe hqe
  cases t with
  | nil => simp [List.isPrefixOf] at hp
  | cons c cs =>
    simp only [List.isPrefixOf_cons₂, Bool.and_eq_true, beq_iff_eq] at hp hq
    exact hp.1.trans hq.1.symm

theorem active_no_main_pid {t : String} {v : String}
    (h : parse_line_value t "Active:" = some v) :
    parse_line_value t "Main PID:" = none := by
  unfold parse_line_value at h ⊢
  split at h
  case isFalse => exact absurd h (by simp)
  case isTrue hA =>
    split
    case isFalse => rfl
    case isTrue hM =>
      have : 'A' = 'M' := isPrefixOf_first_char hA hM rfl rfl
      exact absurd this (by decide)

theorem loaded_no_main_pid {t : String} {v : String}
    (h : parse_line_value t "Loaded:" = some v) :
    parse_line_value t "Main PID:" = none := by
  unfold parse_line_value at h ⊢
  split at h
  case isFalse => exact absurd h (by simp)
  case isTrue hL =>
    split
    case isFalse => rfl
    case isTrue hM =>
      have : 'L' = 'M' := isPrefixOf_first_char hL hM rfl rfl
      exact absurd this (by decide)

/-! ## Per-step field lemmas for the docker status loop -/

theorem dockerStep_active (st : DockerStatus) (l : String) :
    ((dockerStep st l).active_state, (dockerStep st l).is_active)
      = match parse_line_value (trimStr l) "Active:" with
        | some v => (v, containsSubstr v "(running)")
        | none => (st.active_state, st.is_active) := by
  unfold dockerStep
  repeat' split
  all_goals rfl

theorem dockerStep_main_pid (st : DockerStatus) (l : String) :
    (dockerStep st l).main_pid
      = match parse_line_value (trimStr l) "Main PID:" with
        | some v => ((splitWhitespace v).head?).bind parseU32
        | none => st.main_pid := by
  unfold dockerStep
  split
  next v hv => rw [active_no_main_pid hv]
  next hA =>
    split
    next v hv => rw [loaded_no_main_pid hv]
    next hL =>
      split
      next v hv => rfl
      next hM =>
        repeat' split
        all_goals rfl

theorem dockerStep_memory_peak (st : DockerStatus) (l : String)
    (h : parse_line_value (trimStr l) "Mem peak:" = none) :
    (dockerStep st l).memory_peak = st.memory_peak := by
  unfold dockerStep
  repeat' split
  all_goals first
    | rfl
    | simp_all

theorem dockerStep_cpu_time (st : DockerStatus) (l : String)
    (h : parse_line_value (trimStr l) "CPU:" = none) :
    (dockerStep st l).cpu_time = st.cpu_time := by
  unfold dockerStep
  repeat' split
  all_goals first
    | rfl
    | simp_all

/-! ## Fold-level lemmas for the docker status loop -/

theorem foldl_dockerStep_active (lines : List String) : ∀ st : DockerStatus,
    ((lines.foldl dockerStep st).active_state, (lines.foldl dockerStep st).is_active)
      = match (lines.filterMap (fun l => parse_line_value (trimStr l) "Active:")).getLast? with
        | some v => (v, containsSubstr v "(running)")
        | none => (st.active_state, st.is_active) := by
  induction lines with
  | nil => intro st; rfl
  | cons l ls ih =>
    intro st
    rw [List.foldl_cons, ih (dockerStep st l)]
    cases hl : parse_line_value (trimStr l) "Active:" with
    | none =>
      have hfm : (l :: ls).filterMap (fun l => parse_line_value (trimStr l) "Active:")
          = ls.filterMap (fun l => parse_line_value (trimStr l) "Active:") := by
        simp [List.filterMap_cons, hl]
      rw [hfm]
      cases hgl : (ls.filterMap (fun l => parse_line_value (trimStr l) "Active:")).getLast? with
      | some w => rfl
      | none =>
        have h2 := dockerStep_active st l
        rw [hl] at h2
        exact h2
    | some v =>
      have hfm : (l :: ls).filterMap (fun l => parse_line_value (trimStr l) "Active:")
          = v :: ls.filterMap (fun l => parse_line_value (trimStr l) "Active:") := by
        simp [List.filterMap_cons, hl]
      rw [hfm, getLast?_cons_eq]
      cases hgl : (ls.filterMap (fun l => parse_line_value (trimStr l) "Active:")).getLast? with
      | some w => simp
      | none =>
        have h2 := dockerStep_active st l
        rw [hl] at h2
        simp [h2]

theorem foldl_dockerStep_main_pid (lines : List String) : ∀ st : DockerStatus,
    (lines.foldl dockerStep st).main_pid
      = match (lines.filterMap (fun l => parse_line_value (trimStr l) "Main PID:")).getLast? with
        | some v => ((splitWhitespace v).head?).bind parseU32
        | none => st.main_pid := by
  induction lines with
  | nil => intro st; rfl
  | cons l ls ih =>
    intro st
    rw [List.foldl_cons, ih (dockerStep st l)]
    cases hl : parse_line_value (trimStr l) "Main PID:" with
    | none =>
      have hfm : (l :: ls).filterMap (fun l => parse_line_value (trimStr l) "Main PID:")
          = ls.filterMap (fun l => parse_line_value (trimStr l) "Main PID:") := by
        simp [List.filterMap_cons, hl]
      rw [hfm]
      cases hgl : (ls.filterMap (fun l => parse_line_value (trimStr l) "Main PID:")).getLast? with
      | some w => rfl
      | none =>
        have h2 := dockerStep_main_pid st l
        rw [hl] at h2
        exact h2
    | some v =>
      have hfm : (l :: ls).filterMap (fun l => parse_line_value (trimStr l) "Main PID:")
          = v :: ls.filterMap (fun l => parse_line_value (trimStr l) "Main PID:") := by
        simp [List.filterMap_cons, hl]
      rw [hfm, getLast?_cons_eq]
      cases hgl : (ls.filterMap (fun l => parse_line_value (trimStr l) "Main PID:")).getLast? with
      | some w => simp
      | none =>
        have h2 := dockerStep_main_pid st l
        rw [hl] at h2
        simp [h2]

theorem foldl_dockerStep_memory_peak (lines : List String) : ∀ st : DockerStatus,
    (∀ l ∈ lines, parse_line_value (trimStr l) "Mem peak:" = none) →
    (lines.foldl dockerStep st).memory_peak = st.memory_peak := by
  induction lines with
  | nil => intro st _; rfl
  | cons l ls ih =>
    intro st h
    rw [List.foldl_cons, ih (dockerStep st l) (fun x hx => h x (List.mem_cons_of_mem _ hx)),
      dockerStep_memory_peak st l (h l (List.mem_cons_self _ _))]

theorem foldl_dockerStep_cpu_time (lines : List String) : ∀ st : DockerStatus,
    (∀ l ∈ lines, parse_line_value (trimStr l) "CPU:" = none) →
    (lines.foldl dockerStep st).cpu_time = st.cpu_time := by
  induction lines with
  | nil => intro st _; rfl
  | cons l ls ih =>
    intro st h
    rw [List.foldl_cons, ih (dockerStep st l) (fun x hx => h x (List.mem_cons_of_mem _ hx)),
      dockerStep_cpu_time st l (h l (List.mem_cons_self _ _))]

/-! ## Fold-level lemmas for the tailscale machine loop -/

theorem foldl_statusStep_split (lines : List String) :
    ∀ R F : List MachineData,
    lines.foldl statusStep (R ++ F)
      = ((lines.filterMap parseLine).filter (fun m => m.online)).reverse
        ++ R ++ F
        ++ (lines.filterMap parseLine).filter (fun m => !m.online) := by
  induction lines with
  | nil => intro R F; simp
  | cons l ls ih =>
    intro R F
    rw [List.foldl_cons]
    cases hp : parseLine l with
    | none =>
      have hs : statusStep (R ++ F) l = R ++ F := by
        unfold statusStep
        rw [hp]
      rw [hs, ih R F]
      simp [List.filterMap_cons, hp]
    | some m =>
      cases hm : m.online with
      | true =>
        have hs : statusStep (R ++ F) l = (m :: R) ++ F := by
          unfold statusStep
          rw [hp]
          simp [hm]
        rw [hs, ih (m :: R) F]
        simp [List.filterMap_cons, hp, hm, List.append_assoc]
      | false =>
        have hs : statusStep (R ++ F) l = R ++ (F ++ [m]) := by
          unfold statusStep
          rw [hp]
          simp [hm]
        rw [hs, ih R (F ++ [m])]
        simp [List.filterMap_cons, hp, hm, List.append_assoc]

theorem parseMachines_eq_groups (stdout : String) :
    parseMachines stdout
      = (((rustLines stdout).filterMap parseLine).filter (fun m => m.online)).reverse
        ++ ((rustLines stdout).filterMap parseLine).filter (fun m => !m.online) := by
  have h := foldl_statusStep_split (rustLines stdout) [] []
  simpa [parseMachines] using h

theorem parseMachines_perm (stdout : String) :
    (parseMachines stdout).Perm ((rustLines stdout).filterMap parseLine) := by
  rw [parseMachines_eq_groups]
  exact ((List.reverse_perm _).append (List.Perm.refl _)).trans
    (List.filter_append_perm _ _)

/-! ## Per-line lemmas for the tailscale parser -/

theorem parseLine_some_fields {line : String} {m : MachineData}
    (h : parseLine line = some m) :
    4 ≤ (splitWhitespace line).length
    ∧ m.ip = (splitWhitespace line).getD 0 ""
    ∧ m.hostname = (splitWhitespace line).getD 1 ""
    ∧ m.user = (splitWhitespace line).getD 2 ""
    ∧ m.os = (splitWhitespace line).getD 3 ""
    ∧ m.details = String.intercalate " " ((splitWhitespace line).drop 4)
    ∧ m.online = !(containsSubstr m.details "offline") := by
  unfold parseLine at h
  rcases hsw : splitWhitespace line with _ | ⟨a, _ | ⟨b, _ | ⟨c, _ | ⟨d, rest⟩⟩⟩⟩ <;>
    rw [hsw] at h
  case nil => exact absurd h (by simp)
  case cons.nil => exact absurd h (by simp)
  case cons.cons.nil => exact absurd h (by simp)
  case cons.cons.cons.nil => exact absurd h (by simp)
  case cons.cons.cons.cons =>
    simp only [Option.some_inj] at h
    subst h
    refine ⟨by simp, ?_, ?_, ?_, ?_, ?_, ?_⟩ <;> simp

theorem parseLine_none_of_short {line : String}
    (h : (splitWhitespace line).length < 4) : parseLine line = none := by
  unfold parseLine
  rcases hsw : splitWhitespace line with _ | ⟨a, _ | ⟨b, _ | ⟨c, _ | ⟨d, rest⟩⟩⟩⟩ <;>
    first
      | rfl
      | (rw [hsw] at h; simp at h; try omega)

theorem parseLine_isSome_of_long {line : String}
    (h : 4 ≤ (splitWhitespace line).length) : (parseLine line).isSome = true := by
  unfold parseLine
  rcases hsw : splitWhitespace line with _ | ⟨a, _ | ⟨b, _ | ⟨c, _ | ⟨d, rest⟩⟩⟩⟩ <;>
    first
      | rfl
      | (rw [hsw] at h; simp at h; try omega)

/-! ## Event bridge lemmas -/

theorem processedMessages_quit_free (pre : List AppMessage)
    (h : AppMessage.Quit ∉ pre) : processedMessages pre = pre := by
  induction pre with
  | nil => rfl
  | cons m ms ih =>
    have hm : m ≠ AppMessage.Quit := fun he => h (he ▸ List.mem_cons_self _ _)
    have hms : AppMessage.Quit ∉ ms := fun hx => h (List.mem_cons_of_mem _ hx)
    cases m with
    | Quit => exact absurd rfl hm
    | Toggle =>
      rw [show processedMessages (.Toggle :: ms) = .Toggle :: processedMessages ms from rfl,
        ih hms]
    | Refresh =>
      rw [show processedMessages (.Refresh :: ms) = .Refresh :: processedMessages ms from rfl,
        ih hms]
    | SelectItem i =>
      rw [show processedMessages (.SelectItem i :: ms)
          = .SelectItem i :: processedMessages ms from rfl, ih hms]

theorem processedMessages_through_quit (pre post : List AppMessage)
    (h : AppMessage.Quit ∉ pre) :
    processedMessages (pre ++ AppMessage.Quit :: post) = pre ++ [AppMessage.Quit] := by
  induction pre with
  | nil => rfl
  | cons m ms ih =>
    have hm : m ≠ AppMessage.Quit := fun he => h (he ▸ List.mem_cons_self _ _)
    have hms : AppMessage.Quit ∉ ms := fun hx => h (List.mem_cons_of_mem _ hx)
    cases m with
    | Quit => exact absurd rfl hm
    | Toggle =>
      rw [List.cons_append,
        show processedMessages (.Toggle :: (ms ++ AppMessage.Quit :: post))
          = .Toggle :: processedMessages (ms ++ AppMessage.Quit :: post) from rfl,
        ih hms, List.cons_append]
    | Refresh =>
      rw [List.cons_append,
        show processedMessages (.Refresh :: (ms ++ AppMessage.Quit :: post))
          = .Refresh :: processedMessages (ms ++ AppMessage.Quit :: post) from rfl,
        ih hms, List.cons_append]
    | SelectItem i =>
      rw [List.cons_append,
        show processedMessages (.SelectItem i :: (ms ++ AppMessage.Quit :: post))
          = .SelectItem i :: processedMessages (ms ++ AppMessage.Quit :: post) from rfl,
        ih hms, List.cons_append]

/-! ## Claim theorems -/

/-- C1: For every peer-status text, parsing produces exactly one machine
(up to the reordering settled by C2) per input line with at least 4
whitespace-separated tokens: tokens 0-3 become ip, hostname, user and os,
the tokens from index 4 joined by a single space become details, `online`
is true iff details does not contain `"offline"`, lines with fewer than 4
tokens are skipped, and on a successful non-stopped status the result is
returned without an error. -/
theorem tailscale_one_machine_per_line (stdout : String) :
    (parseMachines stdout).Perm ((rustLines stdout).filterMap parseLine)
    ∧ (∀ line, (splitWhitespace line).length < 4 → parseLine line = none)
    ∧ (∀ line, 4 ≤ (splitWhitespace line).length → (parseLine line).isSome = true)
    ∧ (∀ line m, parseLine line = some m →
        m.ip = (splitWhitespace line).getD 0 ""
        ∧ m.hostname = (splitWhitespace line).getD 1 ""
        ∧ m.user = (splitWhitespace line).getD 2 ""
        ∧ m.os = (splitWhitespace line).getD 3 ""
        ∧ m.details = String.intercalate " " ((splitWhitespace line).drop 4)
        ∧ m.online = !(containsSubstr m.details "offline"))
    ∧ (∀ out : CmdOutput, out.success = true →
        trimStr out.stdout ≠ "Tailscale is stopped." →
        Tailscale.status (Except.ok out) = Except.ok (parseMachines out.stdout)) := by
  refine ⟨parseMachines_perm stdout,
    fun line h => parseLine_none_of_short h,
    fun line h => parseLine_isSome_of_long h,
    fun line m h => (parseLine_some_fields h).2,
    fun out h1 h2 => ?_⟩
  simp [Tailscale.status, Tailscale.statusFromOutput, h1, h2]

theorem tailscale_one_machine_per_line_witness :
    (parseMachines "100.1.1.1 host-a alice linux -\n100.1.1.2 host-b alice linux offline\n").Perm
      ((rustLines "100.1.1.1 host-a alice linux -\n100.1.1.2 host-b alice linux offline\n").filterMap parseLine)
    ∧ parseLine "# header line" = none
    ∧ (parseLine "100.1.1.2 host-b alice linux offline").isSome = true
    ∧ Tailscale.status (Except.ok (CmdOutput.mk true
        "100.1.1.1 host-a alice linux -\n100.1.1.2 host-b alice linux offline\n" ""))
      = Except.ok (parseMachines "100.1.1.1 host-a alice linux -\n100.1.1.2 host-b alice linux offline\n") := by
  have h := tailscale_one_machine_per_line
    "100.1.1.1 host-a alice linux -\n100.1.1.2 host-b alice linux offline\n"
  exact ⟨h.1, h.2.1 _ (by decide), h.2.2.1 _ (by decide), h.2.2.2.2 _ (by decide) (by decide)⟩

/-- C2: The sequence returned by the peer parse places every online machine
before every offline machine; the online group is in last-seen-first order
(each online machine is inserted at position 0) and the offline group
preserves the source's line order. -/
theorem tailscale_online_before_offline (stdout : String) :
    parseMachines stdout
      = (((rustLines stdout).filterMap parseLine).filter (fun m => m.online)).reverse
        ++ ((rustLines stdout).filterMap parseLine).filter (fun m => !m.online) :=
  parseMachines_eq_groups stdout

/-- C10: A peer-status line with exactly 4 whitespace-separated tokens
produces a machine whose details field is empty, so its online flag is
true regardless of the machine's actual state. -/
theorem four_token_line_online (line : String)
    (h : (splitWhitespace line).length = 4) :
    ∃ m, parseLine line = some m ∧ m.details = "" ∧ m.online = true := by
  rcases hsw : splitWhitespace line with _ | ⟨a, _ | ⟨b, _ | ⟨c, _ | ⟨d, rest⟩⟩⟩⟩ <;>
    rw [hsw] at h
  case nil => simp at h
  case cons.nil => simp at h
  case cons.cons.nil => simp at h
  case cons.cons.cons.nil => simp at h
  case cons.cons.cons.cons =>
    have hrest : rest = [] := by
      simp at h
      exact h
    subst hrest
    refine ⟨{ ip := a, hostname := b, user := c, os := d,
              online := true, details := "" }, ?_, rfl, rfl⟩
    unfold parseLine
    rw [hsw]
    rfl

theorem four_token_line_online_witness :
    ∃ m, parseLine "100.64.0.7 host-c carol macOS" = some m
      ∧ m.details = "" ∧ m.online = true :=
  four_token_line_online "100.64.0.7 host-c carol macOS" (by decide)

/-- C3 counterexample: an input that contains the line
`Active: active (running)` but whose parsed status has `is_active = false`,
because a later `Active:` line overwrites the field — refuting the claim
that any input containing a line `Active: X (running)` yields
`is_active == true`. -/
theorem docker_active_running_line_cex :
    "Active: active (running)"
      ∈ rustLines "Active: active (running)\nActive: inactive (dead)"
    ∧ (Docker.statusFromOutput (CmdOutput.mk true
        "Active: active (running)\nActive: inactive (dead)" "")).is_active = false
    ∧ (Docker.statusFromOutput (CmdOutput.mk true
        "Active: active (running)\nActive: inactive (dead)" "")).active_state
      = "inactive (dead)" := by
  refine ⟨by decide, by decide, by decide⟩

/-- C3 (amended): `is_active` is true iff `active_state` contains the
substring `"(running)"`; `main_pid`, `memory_peak` and `cpu_time` are
`None` whenever no line with their prefix is present; and it is the LAST
`Active:`-prefixed line (after trimming) that determines `active_state`
and `is_active` — in particular a sole `Active: X (running)` line yields
`is_active == true` and `active_state == X (running)`, and any other sole
`Active:` value yields `is_active == false`. -/
theorem docker_status_invariants (out : CmdOutput) :
    ((Docker.statusFromOutput out).is_active
      = containsSubstr (Docker.statusFromOutput out).active_state "(running)")
    ∧ (∀ v, lastFieldValue "Active:" (rustLines out.stdout) = some v →
        (Docker.statusFromOutput out).active_state = v
        ∧ (Docker.statusFromOutput out).is_active = containsSubstr v "(running)")
    ∧ (lastFieldValue "Active:" (rustLines out.stdout) = none →
        (Docker.statusFromOutput out).active_state = ""
        ∧ (Docker.statusFromOutput out).is_active = false)
    ∧ ((∀ l ∈ rustLines out.stdout, parse_line_value (trimStr l) "Main PID:" = none) →
        (Docker.statusFromOutput out).main_pid = none)
    ∧ ((∀ l ∈ rustLines out.stdout, parse_line_value (trimStr l) "Mem peak:" = none) →
        (Docker.statusFromOutput out).memory_peak = none)
    ∧ ((∀ l ∈ rustLines out.stdout, parse_line_value (trimStr l) "CPU:" = none) →
        (Docker.statusFromOutput out).cpu_time = none) := by
  have hA := foldl_dockerStep_active (rustLines out.stdout) (DockerStatus.initial out.stdout)
  have hM := foldl_dockerStep_main_pid (rustLines out.stdout) (DockerStatus.initial out.stdout)
  have hsome : ∀ v, lastFieldValue "Active:" (rustLines out.stdout) = some v →
      (Docker.statusFromOutput out).active_state = v
      ∧ (Docker.statusFromOutput out).is_active = containsSubstr v "(running)" := by
    intro v hv
    rw [show lastFieldValue "Active:" (rustLines out.stdout)
        = ((rustLines out.stdout).filterMap
            (fun l => parse_line_value (trimStr l) "Active:")).getLast? from rfl] at hv
    rw [hv] at hA
    exact ⟨congrArg Prod.fst hA, congrArg Prod.snd hA⟩
  have hnone : lastFieldValue "Active:" (rustLines out.stdout) = none →
      (Docker.statusFromOutput out).active_state = ""
      ∧ (Docker.statusFromOutput out).is_active = false := by
    intro hv
    rw [show lastFieldValue "Active:" (rustLines out.stdout)
        = ((rustLines out.stdout).filterMap
            (fun l => parse_line_value (trimStr l) "Active:")).getLast? from rfl] at hv
    rw [hv] at hA
    exact ⟨congrArg Prod.fst hA, congrArg Prod.snd hA⟩
  refine ⟨?_, hsome, hnone, ?_, ?_, ?_⟩
  · cases hv : lastFieldValue "Active:" (rustLines out.stdout) with
    | some v =>
      have h := hsome v hv
      rw [h.1, h.2]
    | none =>
      have h := hnone hv
      rw [h.1, h.2]
      decide
  · intro habs
    have h2 := hM
    rw [List.filterMap_eq_nil_iff.mpr habs] at h2
    exact h2
  · intro habs
    exact foldl_dockerStep_memory_peak (rustLines out.stdout)
      (DockerStatus.initial out.stdout) habs
  · intro habs
    exact foldl_dockerStep_cpu_time (rustLines out.stdout)
      (DockerStatus.initial out.stdout) habs

theorem docker_status_invariants_witness :
    (Docker.statusFromOutput (CmdOutput.mk false "Active: inactive (dead)" "")).active_state
      = "inactive (dead)"
    ∧ (Docker.statusFromOutput (CmdOutput.mk false "Active: inactive (dead)" "")).is_active
      = false
    ∧ (Docker.statusFromOutput (CmdOutput.mk false "Active: inactive (dead)" "")).main_pid = none
    ∧ (Docker.statusFromOutput (CmdOutput.mk false "Active: inactive (dead)" "")).memory_peak = none
    ∧ (Docker.statusFromOutput (CmdOutput.mk false "Active: inactive (dead)" "")).cpu_time = none := by
  have h := docker_status_invariants (CmdOutput.mk false "Active: inactive (dead)" "")
  refine ⟨(h.2.1 "inactive (dead)" (by decide)).1,
    (h.2.1 "inactive (dead)" (by decide)).2.trans (by decide),
    h.2.2.2.1 (by decide), h.2.2.2.2.1 (by decide), h.2.2.2.2.2 (by decide)⟩

/-- C4: Docker::status parses stdout and returns a DockerStatus regardless
of the exit code: every captured output — successful or not — yields
`Ok`, a spawn failure yields `CommandError`, and no invocation ever
yields `CommandFailed`. -/
theorem docker_status_ignores_exit_code :
    (∀ out : CmdOutput, Docker.status (Except.ok out)
      = Except.ok (Docker.statusFromOutput out))
    ∧ (∀ e, Docker.status (Except.error e)
      = Except.error (DockerError.CommandError e))
    ∧ (∀ spawn, (∃ st, Docker.status spawn = Except.ok st)
        ∨ (∃ e, Docker.status spawn = Except.error (DockerError.CommandError e))) := by
  refine ⟨fun out => rfl, fun e => rfl, fun spawn => ?_⟩
  cases spawn with
  | error e => exact Or.inr ⟨e, rfl⟩
  | ok out => exact Or.inl ⟨Docker.statusFromOutput out, rfl⟩

/-- C5: when the status command succeeds and its trimmed stdout is exactly
`Tailscale is stopped.`, Tailscale::status returns the DaemonStopped
condition and Tailscale::is_enabled returns Ok(false). -/
theorem tailscale_stopped_daemon (out : CmdOutput) (h1 : out.success = true)
    (h2 : trimStr out.stdout = "Tailscale is stopped.") :
    Tailscale.status (Except.ok out) = Except.error TailscaleError.DaemonStopped
    ∧ Tailscale.is_enabled (Except.ok out) = Except.ok false := by
  constructor <;>
    simp [Tailscale.status, Tailscale.statusFromOutput, Tailscale.is_enabled, h1, h2]

theorem tailscale_stopped_daemon_witness :
    Tailscale.status (Except.ok (CmdOutput.mk true "  Tailscale is stopped.\n" ""))
      = Except.error TailscaleError.DaemonStopped
    ∧ Tailscale.is_enabled (Except.ok (CmdOutput.mk true "  Tailscale is stopped.\n" ""))
      = Except.ok false :=
  tailscale_stopped_daemon (CmdOutput.mk true "  Tailscale is stopped.\n" "")
    rfl (by decide)

/-- C6 counterexample: the claim says both services treat a query error as
false and then call start; but on a spawn failure `Docker::toggle`
propagates the query error instead of calling start. -/
theorem toggle_uniform_cex :
    Docker.toggle (Except.error "failed to spawn systemctl")
      = Except.error (DockerError.CommandError "failed to spawn systemctl")
    ∧ Docker.toggle (Except.error "failed to spawn systemctl")
      ≠ Except.ok ServiceAction.start :=
  ⟨rfl, fun h => Except.noConfusion h⟩

/-- C6 (amended): `Tailscale::toggle` treats a query error as false (and so
calls start, `up`), while `Docker::toggle` propagates a query error without
calling either operation; when the query succeeds, both call the stop
operation if the result is true and the start operation otherwise. -/
theorem toggle_query_then_act (spawn : Except String CmdOutput) :
    (∀ e, Tailscale.is_enabled spawn = Except.error e →
      Tailscale.toggle spawn = ServiceAction.start)
    ∧ (∀ b, Tailscale.is_enabled spawn = Except.ok b →
      Tailscale.toggle spawn
        = (if b then ServiceAction.stop else ServiceAction.start))
    ∧ (∀ e, Docker.is_active spawn = Except.error e →
      Docker.toggle spawn = Except.error e)
    ∧ (∀ b, Docker.is_active spawn = Except.ok b →
      Docker.toggle spawn
        = Except.ok (if b then ServiceAction.stop else ServiceAction.start)) := by
  refine ⟨fun e he => ?_, fun b hb => ?_, fun e he => ?_, fun b hb => ?_⟩
  · unfold Tailscale.toggle unwrapOr
    rw [he]
    rfl
  · unfold Tailscale.toggle unwrapOr
    rw [hb]
  · unfold Docker.toggle
    rw [he]
  · unfold Docker.toggle
    rw [hb]
    cases b <;> rfl

theorem toggle_query_then_act_witness :
    Tailscale.toggle (Except.error "exec failed") = ServiceAction.start
    ∧ Docker.toggle (Except.error "exec failed")
      = Except.error (DockerError.CommandError "exec failed")
    ∧ Tailscale.toggle (Except.ok (CmdOutput.mk true "100.1.1.1 h u linux -" ""))
      = ServiceAction.stop := by
  have h1 := toggle_query_then_act (Except.error "exec failed")
  have h2 := toggle_query_then_act (Except.ok (CmdOutput.mk true "100.1.1.1 h u linux -" ""))
  exact ⟨h1.1 _ rfl, h1.2.2.1 _ rfl, (h2.2.1 true rfl).trans rfl⟩

/-- C7: when the status command exits non-zero, Tailscale::is_enabled
returns Ok(false) if stderr contains one of the two recognized not-running
messages and CommandFailed(stderr) otherwise; when the command succeeds it
returns true iff the trimmed stdout differs from the stopped text. -/
theorem tailscale_is_enabled_spec (out : CmdOutput) :
    (out.success = false →
      ((containsSubstr out.stderr "Tailscale is not running"
          || containsSubstr out.stderr "Cannot connect to the Tailscale daemon") = true →
        Tailscale.is_enabled (Except.ok out) = Except.ok false)
      ∧ ((containsSubstr out.stderr "Tailscale is not running"
          || containsSubstr out.stderr "Cannot connect to the Tailscale daemon") = false →
        Tailscale.is_enabled (Except.ok out)
          = Except.error (TailscaleError.CommandFailed out.stderr)))
    ∧ (out.success = true →
      Tailscale.is_enabled (Except.ok out)
        = Except.ok (decide (trimStr out.stdout ≠ "Tailscale is stopped."))) := by
  refine ⟨fun hs => ⟨fun hc => ?_, fun hc => ?_⟩, fun hs => ?_⟩
  · simp [Tailscale.is_enabled, hs, hc]
  · simp [Tailscale.is_enabled, hs, hc]
  · simp [Tailscale.is_enabled, hs]

theorem tailscale_is_enabled_spec_witness :
    Tailscale.is_enabled (Except.ok (CmdOutput.mk false ""
        "failed to connect: Tailscale is not running"))
      = Except.ok false
    ∧ Tailscale.is_enabled (Except.ok (CmdOutput.mk false "" "permission denied"))
      = Except.error (TailscaleError.CommandFailed "permission denied")
    ∧ Tailscale.is_enabled (Except.ok (CmdOutput.mk true "100.1.1.1 h u linux -" ""))
      = Except.ok true := by
  refine ⟨((tailscale_is_enabled_spec (CmdOutput.mk false ""
      "failed to connect: Tailscale is not running")).1 rfl).1 (by decide),
    ((tailscale_is_enabled_spec (CmdOutput.mk false "" "permission denied")).1 rfl).2
      (by decide),
    ((tailscale_is_enabled_spec (CmdOutput.mk true "100.1.1.1 h u linux -" "")).2 rfl).trans
      rfl⟩

/-- C8: a line with the recognized prefix `Main PID:` sets `main_pid` by
parsing only the first whitespace-delimited token of the trimmed remainder
as an unsigned integer (the last such line wins); a token that does not
parse leaves the field `None` without an error, and when no such line is
present the field is `None`. -/
theorem docker_main_pid_first_token (out : CmdOutput) :
    ((Docker.statusFromOutput out).main_pid
      = match lastFieldValue "Main PID:" (rustLines out.stdout) with
        | some v => ((splitWhitespace v).head?).bind parseU32
        | none => none)
    ∧ ((∀ l ∈ rustLines out.stdout, parse_line_value (trimStr l) "Main PID:" = none) →
        (Docker.statusFromOutput out).main_pid = none)
    ∧ (∀ v, lastFieldValue "Main PID:" (rustLines out.stdout) = some v →
        (∀ t, (splitWhitespace v).head? = some t → parseU32 t = none →
          (Docker.statusFromOutput out).main_pid = none)) := by
  have hM := foldl_dockerStep_main_pid (rustLines out.stdout)
    (DockerStatus.initial out.stdout)
  refine ⟨hM, fun habs => ?_, fun v hv t ht hp => ?_⟩
  · have h2 := hM
    rw [List.filterMap_eq_nil_iff.mpr habs] at h2
    exact h2
  · have h2 := hM
    rw [show lastFieldValue "Main PID:" (rustLines out.stdout)
        = ((rustLines out.stdout).filterMap
            (fun l => parse_line_value (trimStr l) "Main PID:")).getLast? from rfl] at hv
    rw [hv] at h2
    simpa [ht, hp] using h2

theorem docker_main_pid_first_token_witness :
    (Docker.statusFromOutput (CmdOutput.mk true "Main PID: 4821 (dockerd)" "")).main_pid
      = some 4821
    ∧ (Docker.statusFromOutput (CmdOutput.mk true "Main PID: notanumber" "")).main_pid
      = none
    ∧ (Docker.statusFromOutput (CmdOutput.mk false "Active: inactive (dead)" "")).main_pid
      = none := by
  refine ⟨(docker_main_pid_first_token (CmdOutput.mk true "Main PID: 4821 (dockerd)" "")).1.trans
      (by rfl),
    (docker_main_pid_first_token (CmdOutput.mk true "Main PID: notanumber" "")).2.2
      "notanumber" (by decide) "notanumber" (by decide) (by decide),
    (docker_main_pid_first_token (CmdOutput.mk false "Active: inactive (dead)" "")).2.1
      (by decide)⟩

/-- C9: every message sent on the Event Bridge is consumed exactly once and
in the order sent — when the sent sequence has no Quit the consumer
processes exactly that sequence, and when it is pre ++ Quit :: post with no
Quit in pre the consumer processes exactly pre ++ Quit and nothing after
the Quit, stopping its loop there. -/
theorem event_bridge_order (pre post : List AppMessage)
    (h : AppMessage.Quit ∉ pre) :
    processedMessages (pre ++ AppMessage.Quit :: post) = pre ++ [AppMessage.Quit]
    ∧ processedMessages pre = pre :=
  ⟨processedMessages_through_quit pre post h, processedMessages_quit_free pre h⟩

theorem event_bridge_order_witness :
    processedMessages [AppMessage.Refresh, AppMessage.Toggle, AppMessage.Quit,
        AppMessage.SelectItem "100.1.1.1"]
      = [AppMessage.Refresh, AppMessage.Toggle, AppMessage.Quit]
    ∧ processedMessages [AppMessage.Refresh, AppMessage.Toggle]
      = [AppMessage.Refresh, AppMessage.Toggle] :=
  event_bridge_order [AppMessage.Refresh, AppMessage.Toggle]
    [AppMessage.SelectItem "100.1.1.1"] (by decide)
